import Mathlib

/-!
Verification of the jetxl OOXML workbook serialization engine.

This file gives a shallow embedding, in Lean 4, of the parts of the Rust
sources relevant to the frozen claims: the style-interning registry
(src/styles.rs), the structural validator and atomic file commit
(src/validation.rs), the multi-sheet package assembly loop and the direct
zip write (src/writer.rs), and the cell/number/date/column-letter encoders
(src/xml.rs).  Rust mutation is modelled by explicit state passing,
fallible code by Except, f64 values by rationals (with an explicit
non-finite tag where the code branches on finiteness), and byte buffers by
lists of natural numbers.
-/

/-! ## Generic list helpers

The Rust registry code scans vectors with a for loop and returns the index
of the first structurally equal entry.  firstIdx is that loop; findCustom
is the analogous loop over (id, code) pairs in get_or_add_num_fmt.
-/

def firstIdx {α : Type} [DecidableEq α] (x : α) : List α → Option Nat
  | [] => none
  | y :: ys => if y = x then some 0 else (firstIdx x ys).map (· + 1)

theorem firstIdx_get {α : Type} [DecidableEq α] (x : α) :
    ∀ (l : List α) (i : Nat), firstIdx x l = some i → l[i]? = some x := by
  intro l
  induction l with
  | nil => intro i h; simp [firstIdx] at h
  | cons y ys ih =>
    intro i h
    simp only [firstIdx] at h
    by_cases hy : y = x
    · rw [if_pos hy] at h
      cases h
      simp [hy]
    · rw [if_neg hy, Option.map_eq_some'] at h
      obtain ⟨j, hj, rfl⟩ := h
      simpa using ih j hj

theorem firstIdx_lt_length {α : Type} [DecidableEq α] (x : α)
    (l : List α) (i : Nat) (h : firstIdx x l = some i) : i < l.length := by
  have h2 := firstIdx_get x l i h
  rcases List.getElem?_eq_some.mp h2 with ⟨hlt, _⟩
  exact hlt

theorem firstIdx_append_self {α : Type} [DecidableEq α] (x : α) :
    ∀ (l : List α), firstIdx x l = none → firstIdx x (l ++ [x]) = some l.length := by
  intro l
  induction l with
  | nil => intro _; simp [firstIdx]
  | cons y ys ih =>
    intro h
    simp only [firstIdx] at h ⊢
    by_cases hy : y = x
    · simp [hy] at h
    · simp [hy] at h ⊢
      rw [ih h]

theorem getElem?_append_left_of_some {α : Type} (l l₂ : List α) (i : Nat) (x : α)
    (h : l[i]? = some x) : (l ++ l₂)[i]? = some x := by
  rcases List.getElem?_eq_some.mp h with ⟨hlt, _⟩
  rw [List.getElem?_append_left hlt]
  exact h

/-! ## Style data model (src/styles.rs)

Mirrors the Rust structs.  f64 fields (font size) are modelled as
rationals; the Rust derive(PartialEq) equality on these structs is
structural equality, matching the derived DecidableEq here.
-/

inductive PatternType
  | none
  | solid
  | gray125
deriving DecidableEq, Repr

structure FontStyle where
  bold : Bool
  italic : Bool
  underline : Bool
  size : Option ℚ
  color : Option String
  name : Option String
deriving DecidableEq, Repr

structure FillStyle where
  pattern_type : PatternType
  fg_color : Option String
  bg_color : Option String
deriving DecidableEq, Repr

inductive BorderLineStyle
  | thin
  | medium
  | thick
  | double
  | dotted
  | dashed
deriving DecidableEq, Repr

structure BorderSide where
  style : BorderLineStyle
  color : Option String
deriving DecidableEq, Repr

structure BorderStyle where
  left : Option BorderSide
  right : Option BorderSide
  top : Option BorderSide
  bottom : Option BorderSide
deriving DecidableEq, Repr

inductive HorizontalAlignment
  | left
  | center
  | right
  | justify
deriving DecidableEq, Repr

inductive VerticalAlignment
  | top
  | center
  | bottom
deriving DecidableEq, Repr

structure AlignmentStyle where
  horizontal : Option HorizontalAlignment
  vertical : Option VerticalAlignment
  wrap_text : Bool
  text_rotation : Option Int
deriving DecidableEq, Repr

/-- NumberFormat from src/styles.rs: built-in variants with fixed ids plus
Custom format code strings. -/
inductive NumberFormat
  | general
  | integer
  | decimal2
  | decimal4
  | percentage
  | percentageDecimal
  | currency
  | currencyRounded
  | date
  | dateTime
  | time
  | scientific
  | fraction
  | fractionTwoDigits
  | thousandsSeparator
  | percentageInteger
  | custom (code : String)
deriving DecidableEq, Repr

/-- fmt_info from src/styles.rs lines 67-87: built-in formats return a
fixed id and no code; Custom returns id 0 with its code (the registry
assigns the real id). -/
def fmt_info : NumberFormat → Nat × Option String
  | .general => (0, none)
  | .integer => (165, none)
  | .decimal2 => (166, none)
  | .decimal4 => (167, none)
  | .percentage => (9, none)
  | .percentageDecimal => (10, none)
  | .currency => (168, none)
  | .currencyRounded => (169, none)
  | .date => (14, none)
  | .dateTime => (164, none)
  | .time => (170, none)
  | .scientific => (175, none)
  | .fraction => (176, none)
  | .fractionTwoDigits => (177, none)
  | .thousandsSeparator => (173, none)
  | .percentageInteger => (174, none)
  | .custom code => (0, some code)

structure CellStyle where
  font : Option FontStyle
  fill : Option FillStyle
  border : Option BorderStyle
  alignment : Option AlignmentStyle
  number_format : Option NumberFormat
deriving DecidableEq, Repr

structure CellXfEntry where
  num_fmt_id : Nat
  font_id : Nat
  fill_id : Nat
  border_id : Nat
  alignment : Option AlignmentStyle
deriving DecidableEq, Repr

/-- is_likely_invalid_format from src/styles.rs lines 24-35: a code is
rejected when it is empty, or when every character is alphabetic or
whitespace.  Rust uses Unicode classes; the ASCII classes used here agree
on all ASCII inputs. -/
def is_likely_invalid_format (code : String) : Bool :=
  code.isEmpty || code.data.all (fun c => c.isAlpha || c.isWhitespace)

structure StyleRegistry where
  fonts : List FontStyle
  fills : List FillStyle
  borders : List BorderStyle
  cell_xfs : List CellXfEntry
  dxfs : List CellStyle
  custom_num_fmts : List (Nat × String)
  next_custom_fmt_id : Nat
deriving DecidableEq, Repr

/-- StyleRegistry::new from src/styles.rs lines 382-405 together with
build_default_xfs (lines 407-421): the pre-seeded fonts, fills, borders
and default cell xfs. -/
def StyleRegistry.new : StyleRegistry where
  fonts :=
    [ { bold := false, italic := false, underline := false, size := some 11,
        color := none, name := some "Calibri" },
      { bold := true, italic := false, underline := false, size := some 11,
        color := none, name := some "Calibri" },
      { bold := false, italic := false, underline := true, size := some 11,
        color := some "FF0000FF", name := some "Calibri" } ]
  fills :=
    [ { pattern_type := .none, fg_color := none, bg_color := none },
      { pattern_type := .gray125, fg_color := none, bg_color := none },
      { pattern_type := .solid, fg_color := some "FFD9D9D9", bg_color := none } ]
  borders :=
    [ { left := none, right := none, top := none, bottom := none } ]
  cell_xfs :=
    [ ⟨0, 0, 0, 0, none⟩, ⟨164, 0, 0, 0, none⟩, ⟨0, 1, 0, 0, none⟩,
      ⟨0, 1, 2, 0, none⟩, ⟨168, 0, 0, 0, none⟩, ⟨9, 0, 0, 0, none⟩,
      ⟨10, 0, 0, 0, none⟩, ⟨165, 0, 0, 0, none⟩, ⟨166, 0, 0, 0, none⟩,
      ⟨0, 2, 0, 0, none⟩, ⟨14, 0, 0, 0, none⟩ ]
  dxfs := []
  custom_num_fmts := []
  next_custom_fmt_id := 178

/-- The duplicate-lookup loop over custom_num_fmts in get_or_add_num_fmt
(src/styles.rs lines 429-433): return the id of the first entry whose code
matches. -/
def findCustom (code : String) : List (Nat × String) → Option Nat
  | [] => none
  | (id, c) :: rest => if c = code then some id else findCustom code rest

/-- get_or_add_num_fmt from src/styles.rs lines 422-455.  Built-ins return
their fixed id.  Custom codes are first looked up among interned codes
(dedup before validation); a new code is rejected when
is_likely_invalid_format holds, else appended with the next sequential id
starting at 178.  The non-fatal eprintln warning for codes matching a
built-in pattern is a side effect with no bearing on state or result and
is not modelled. -/
def get_or_add_num_fmt (r : StyleRegistry) (fmt : NumberFormat) :
    Except String (Nat × StyleRegistry) :=
  match fmt_info fmt with
  | (base_id, none) => .ok (base_id, r)
  | (_, some code) =>
    match findCustom code r.custom_num_fmts with
    | some id => .ok (id, r)
    | none =>
      if is_likely_invalid_format code then
        .error ("Invalid format code: " ++ code)
      else
        .ok (r.next_custom_fmt_id,
          { r with
            custom_num_fmts := r.custom_num_fmts ++ [(r.next_custom_fmt_id, code)],
            next_custom_fmt_id := r.next_custom_fmt_id + 1 })

/-- get_or_add_font from src/styles.rs lines 509-517: linear scan for
structural equality; on miss, append and return the new index. -/
def get_or_add_font (r : StyleRegistry) (f : FontStyle) : Nat × StyleRegistry :=
  match firstIdx f r.fonts with
  | some i => (i, r)
  | none => (r.fonts.length, { r with fonts := r.fonts ++ [f] })

/-- get_or_add_fill from src/styles.rs lines 519-527. -/
def get_or_add_fill (r : StyleRegistry) (f : FillStyle) : Nat × StyleRegistry :=
  match firstIdx f r.fills with
  | some i => (i, r)
  | none => (r.fills.length, { r with fills := r.fills ++ [f] })

/-- get_or_add_border from src/styles.rs lines 529-537. -/
def get_or_add_border (r : StyleRegistry) (b : BorderStyle) : Nat × StyleRegistry :=
  match firstIdx b r.borders with
  | some i => (i, r)
  | none => (r.borders.length, { r with borders := r.borders ++ [b] })

/-- The font component resolution at the head of register_cell_style
(src/styles.rs lines 458-462): an absent font maps to id 0, a present one
is interned. -/
def fontStep (r : StyleRegistry) (s : CellStyle) : Nat × StyleRegistry :=
  match s.font with
  | some f => get_or_add_font r f
  | none => (0, r)

/-- Fill component resolution in register_cell_style (lines 464-468). -/
def fillStep (r : StyleRegistry) (s : CellStyle) : Nat × StyleRegistry :=
  match s.fill with
  | some f => get_or_add_fill r f
  | none => (0, r)

/-- Border component resolution in register_cell_style (lines 470-474). -/
def borderStep (r : StyleRegistry) (s : CellStyle) : Nat × StyleRegistry :=
  match s.border with
  | some b => get_or_add_border r b
  | none => (0, r)

/-- Number-format component resolution in register_cell_style (lines
476-480); the question-mark operator propagates the error. -/
def numFmtStep (r : StyleRegistry) (s : CellStyle) :
    Except String (Nat × StyleRegistry) :=
  match s.number_format with
  | some fmt => get_or_add_num_fmt r fmt
  | none => .ok (0, r)

/-- register_cell_style from src/styles.rs lines 457-502: intern the
font, fill, border and number format components (absent components map to
id 0), then scan cell_xfs for an entry equal in all five fields, appending
on miss. -/
def register_cell_style (r : StyleRegistry) (s : CellStyle) :
    Except String (Nat × StyleRegistry) :=
  let p1 := fontStep r s
  let p2 := fillStep p1.2 s
  let p3 := borderStep p2.2 s
  match numFmtStep p3.2 s with
  | .error e => .error e
  | .ok p4 =>
    let entry : CellXfEntry := ⟨p4.1, p1.1, p2.1, p3.1, s.alignment⟩
    match firstIdx entry p4.2.cell_xfs with
    | some i => .ok (i, p4.2)
    | none => .ok (p4.2.cell_xfs.length, { p4.2 with cell_xfs := p4.2.cell_xfs ++ [entry] })

/-- register_dxf from src/styles.rs lines 504-507: unconditionally push
the style and return the new index.  There is no deduplication scan. -/
def register_dxf (r : StyleRegistry) (s : CellStyle) : Nat × StyleRegistry :=
  (r.dxfs.length, { r with dxfs := r.dxfs ++ [s] })

/-! ### Interning lemmas for the registry -/

theorem findCustom_append_self (code : String) (id : Nat) :
    ∀ l, findCustom code l = none →
      findCustom code (l ++ [(id, code)]) = some id := by
  intro l
  induction l with
  | nil => intro _; simp [findCustom]
  | cons p rest ih =>
    intro h
    simp only [findCustom] at h ⊢
    by_cases hc : p.2 = code
    · simp [hc] at h
    · simp only [if_neg hc] at h ⊢
      exact ih h

theorem get_or_add_font_of_found (r : StyleRegistry) (f : FontStyle) (i : Nat)
    (h : firstIdx f r.fonts = some i) : get_or_add_font r f = (i, r) := by
  unfold get_or_add_font
  rw [h]

theorem get_or_add_font_found_after (r : StyleRegistry) (f : FontStyle) :
    firstIdx f (get_or_add_font r f).2.fonts = some (get_or_add_font r f).1 := by
  unfold get_or_add_font
  cases h : firstIdx f r.fonts with
  | some i => simpa using h
  | none => simpa using firstIdx_append_self f r.fonts h

theorem get_or_add_font_lookup (r : StyleRegistry) (f : FontStyle) :
    (get_or_add_font r f).2.fonts[(get_or_add_font r f).1]? = some f :=
  firstIdx_get f _ _ (get_or_add_font_found_after r f)

theorem get_or_add_fill_of_found (r : StyleRegistry) (f : FillStyle) (i : Nat)
    (h : firstIdx f r.fills = some i) : get_or_add_fill r f = (i, r) := by
  unfold get_or_add_fill
  rw [h]

theorem get_or_add_fill_found_after (r : StyleRegistry) (f : FillStyle) :
    firstIdx f (get_or_add_fill r f).2.fills = some (get_or_add_fill r f).1 := by
  unfold get_or_add_fill
  cases h : firstIdx f r.fills with
  | some i => simpa using h
  | none => simpa using firstIdx_append_self f r.fills h

theorem get_or_add_fill_lookup (r : StyleRegistry) (f : FillStyle) :
    (get_or_add_fill r f).2.fills[(get_or_add_fill r f).1]? = some f :=
  firstIdx_get f _ _ (get_or_add_fill_found_after r f)

theorem get_or_add_border_of_found (r : StyleRegistry) (b : BorderStyle) (i : Nat)
    (h : firstIdx b r.borders = some i) : get_or_add_border r b = (i, r) := by
  unfold get_or_add_border
  rw [h]

theorem get_or_add_border_found_after (r : StyleRegistry) (b : BorderStyle) :
    firstIdx b (get_or_add_border r b).2.borders = some (get_or_add_border r b).1 := by
  unfold get_or_add_border
  cases h : firstIdx b r.borders with
  | some i => simpa using h
  | none => simpa using firstIdx_append_self b r.borders h

theorem get_or_add_border_lookup (r : StyleRegistry) (b : BorderStyle) :
    (get_or_add_border r b).2.borders[(get_or_add_border r b).1]? = some b :=
  firstIdx_get b _ _ (get_or_add_border_found_after r b)

theorem get_or_add_font_idem (r : StyleRegistry) (f : FontStyle) :
    get_or_add_font (get_or_add_font r f).2 f =
      ((get_or_add_font r f).1, (get_or_add_font r f).2) :=
  get_or_add_font_of_found _ f _ (get_or_add_font_found_after r f)

theorem get_or_add_fill_idem (r : StyleRegistry) (f : FillStyle) :
    get_or_add_fill (get_or_add_fill r f).2 f =
      ((get_or_add_fill r f).1, (get_or_add_fill r f).2) :=
  get_or_add_fill_of_found _ f _ (get_or_add_fill_found_after r f)

theorem get_or_add_border_idem (r : StyleRegistry) (b : BorderStyle) :
    get_or_add_border (get_or_add_border r b).2 b =
      ((get_or_add_border r b).1, (get_or_add_border r b).2) :=
  get_or_add_border_of_found _ b _ (get_or_add_border_found_after r b)

theorem get_or_add_font_distinct (r : StyleRegistry) (f g : FontStyle)
    (hfg : f ≠ g) :
    (get_or_add_font (get_or_add_font r f).2 g).1 ≠ (get_or_add_font r f).1 := by
  have hl := get_or_add_font_lookup r f
  set r1 := (get_or_add_font r f).2 with hr1
  set i1 := (get_or_add_font r f).1 with hi1
  unfold get_or_add_font
  cases h2 : firstIdx g r1.fonts with
  | some j =>
    intro hji
    simp at hji
    have := firstIdx_get g r1.fonts j h2
    rw [hji] at this
    rw [hl] at this
    exact hfg (Option.some.inj this)
  | none =>
    intro hlen
    simp at hlen
    rcases List.getElem?_eq_some.mp hl with ⟨hlt, _⟩
    omega

theorem get_or_add_fill_distinct (r : StyleRegistry) (f g : FillStyle)
    (hfg : f ≠ g) :
    (get_or_add_fill (get_or_add_fill r f).2 g).1 ≠ (get_or_add_fill r f).1 := by
  have hl := get_or_add_fill_lookup r f
  set r1 := (get_or_add_fill r f).2 with hr1
  set i1 := (get_or_add_fill r f).1 with hi1
  unfold get_or_add_fill
  cases h2 : firstIdx g r1.fills with
  | some j =>
    intro hji
    simp at hji
    have := firstIdx_get g r1.fills j h2
    rw [hji] at this
    rw [hl] at this
    exact hfg (Option.some.inj this)
  | none =>
    intro hlen
    simp at hlen
    rcases List.getElem?_eq_some.mp hl with ⟨hlt, _⟩
    omega

theorem get_or_add_border_distinct (r : StyleRegistry) (b c : BorderStyle)
    (hbc : b ≠ c) :
    (get_or_add_border (get_or_add_border r b).2 c).1 ≠ (get_or_add_border r b).1 := by
  have hl := get_or_add_border_lookup r b
  set r1 := (get_or_add_border r b).2 with hr1
  set i1 := (get_or_add_border r b).1 with hi1
  unfold get_or_add_border
  cases h2 : firstIdx c r1.borders with
  | some j =>
    intro hji
    simp at hji
    have := firstIdx_get c r1.borders j h2
    rw [hji] at this
    rw [hl] at this
    exact hbc (Option.some.inj this)
  | none =>
    intro hlen
    simp at hlen
    rcases List.getElem?_eq_some.mp hl with ⟨hlt, _⟩
    omega

theorem get_or_add_num_fmt_stable (r r2 : StyleRegistry) (fmt : NumberFormat)
    (n : Nat) (r4 : StyleRegistry)
    (h : get_or_add_num_fmt r fmt = .ok (n, r4))
    (hc : r2.custom_num_fmts = r4.custom_num_fmts) :
    get_or_add_num_fmt r2 fmt = .ok (n, r2) := by
  unfold get_or_add_num_fmt at h ⊢
  cases hinfo : fmt_info fmt with
  | mk base opt =>
    rw [hinfo] at h
    cases opt with
    | none =>
      simp only at h
      cases h
      simp [hc]
    | some code =>
      simp only at h ⊢
      cases hfc : findCustom code r.custom_num_fmts with
      | some j =>
        rw [hfc] at h
        cases h
        rw [hc, hfc]
      | none =>
        rw [hfc] at h
        by_cases hinv : is_likely_invalid_format code
        · simp [hinv] at h
        · simp only [hinv, Bool.false_eq_true, if_false, if_neg] at h
          cases h
          rw [hc]
          simp only
          rw [findCustom_append_self code _ _ hfc]

theorem numFmtStep_stable (r r2 : StyleRegistry) (s : CellStyle)
    (n : Nat) (r4 : StyleRegistry)
    (h : numFmtStep r s = .ok (n, r4))
    (hc : r2.custom_num_fmts = r4.custom_num_fmts) :
    numFmtStep r2 s = .ok (n, r2) := by
  unfold numFmtStep at h ⊢
  cases hs : s.number_format with
  | none =>
    rw [hs] at h
    cases h
    rfl
  | some fmt =>
    rw [hs] at h
    exact get_or_add_num_fmt_stable r r2 fmt n r4 h hc

theorem fontStep_stable (r r2 : StyleRegistry) (s : CellStyle)
    (n : Nat) (r1 : StyleRegistry)
    (h : fontStep r s = (n, r1)) (hf : r2.fonts = r1.fonts) :
    fontStep r2 s = (n, r2) := by
  cases hs : s.font with
  | none =>
    simp only [fontStep, hs] at h ⊢
    cases h
    rfl
  | some f =>
    simp only [fontStep, hs] at h ⊢
    have hfa : firstIdx f r1.fonts = some n := by
      have h2 := get_or_add_font_found_after r f
      rw [h] at h2
      exact h2
    apply get_or_add_font_of_found
    rw [hf]
    exact hfa

theorem fillStep_stable (r r2 : StyleRegistry) (s : CellStyle)
    (n : Nat) (r1 : StyleRegistry)
    (h : fillStep r s = (n, r1)) (hf : r2.fills = r1.fills) :
    fillStep r2 s = (n, r2) := by
  cases hs : s.fill with
  | none =>
    simp only [fillStep, hs] at h ⊢
    cases h
    rfl
  | some f =>
    simp only [fillStep, hs] at h ⊢
    have hfa : firstIdx f r1.fills = some n := by
      have h2 := get_or_add_fill_found_after r f
      rw [h] at h2
      exact h2
    apply get_or_add_fill_of_found
    rw [hf]
    exact hfa

theorem borderStep_stable (r r2 : StyleRegistry) (s : CellStyle)
    (n : Nat) (r1 : StyleRegistry)
    (h : borderStep r s = (n, r1)) (hf : r2.borders = r1.borders) :
    borderStep r2 s = (n, r2) := by
  cases hs : s.border with
  | none =>
    simp only [borderStep, hs] at h ⊢
    cases h
    rfl
  | some b =>
    simp only [borderStep, hs] at h ⊢
    have hfa : firstIdx b r1.borders = some n := by
      have h2 := get_or_add_border_found_after r b
      rw [h] at h2
      exact h2
    apply get_or_add_border_of_found
    rw [hf]
    exact hfa

theorem fontStep_preserves (r : StyleRegistry) (s : CellStyle) :
    (fontStep r s).2.fills = r.fills ∧ (fontStep r s).2.borders = r.borders ∧
    (fontStep r s).2.cell_xfs = r.cell_xfs ∧
    (fontStep r s).2.custom_num_fmts = r.custom_num_fmts := by
  cases hs : s.font with
  | none => simp [fontStep, hs]
  | some f =>
    simp only [fontStep, hs, get_or_add_font]
    cases firstIdx f r.fonts <;> simp

theorem fillStep_preserves (r : StyleRegistry) (s : CellStyle) :
    (fillStep r s).2.fonts = r.fonts ∧ (fillStep r s).2.borders = r.borders ∧
    (fillStep r s).2.cell_xfs = r.cell_xfs ∧
    (fillStep r s).2.custom_num_fmts = r.custom_num_fmts := by
  cases hs : s.fill with
  | none => simp [fillStep, hs]
  | some f =>
    simp only [fillStep, hs, get_or_add_fill]
    cases firstIdx f r.fills <;> simp

theorem borderStep_preserves (r : StyleRegistry) (s : CellStyle) :
    (borderStep r s).2.fonts = r.fonts ∧ (borderStep r s).2.fills = r.fills ∧
    (borderStep r s).2.cell_xfs = r.cell_xfs ∧
    (borderStep r s).2.custom_num_fmts = r.custom_num_fmts := by
  cases hs : s.border with
  | none => simp [borderStep, hs]
  | some b =>
    simp only [borderStep, hs, get_or_add_border]
    cases firstIdx b r.borders <;> simp

theorem numFmtStep_preserves (r : StyleRegistry) (s : CellStyle)
    (p4 : Nat × StyleRegistry) (h : numFmtStep r s = .ok p4) :
    p4.2.fonts = r.fonts ∧ p4.2.fills = r.fills ∧
    p4.2.borders = r.borders ∧ p4.2.cell_xfs = r.cell_xfs := by
  cases hs : s.number_format with
  | none =>
    simp only [numFmtStep, hs] at h
    cases h
    exact ⟨rfl, rfl, rfl, rfl⟩
  | some fmt =>
    simp only [numFmtStep, hs] at h
    unfold get_or_add_num_fmt at h
    cases hinfo : fmt_info fmt with
    | mk base opt =>
      rw [hinfo] at h
      cases opt with
      | none =>
        simp only at h
        cases h
        exact ⟨rfl, rfl, rfl, rfl⟩
      | some code =>
        simp only at h
        cases hfc : findCustom code r.custom_num_fmts with
        | some j =>
          rw [hfc] at h
          cases h
          exact ⟨rfl, rfl, rfl, rfl⟩
        | none =>
          rw [hfc] at h
          by_cases hinv : is_likely_invalid_format code
          · simp [hinv] at h
          · rw [if_neg (by simp [hinv])] at h
            cases h
            exact ⟨rfl, rfl, rfl, rfl⟩

theorem register_cell_style_idem (r : StyleRegistry) (s : CellStyle)
    (i : Nat) (rOut : StyleRegistry)
    (h : register_cell_style r s = .ok (i, rOut)) :
    register_cell_style rOut s = .ok (i, rOut) := by
  simp only [register_cell_style] at h ⊢
  cases hnf : numFmtStep (borderStep (fillStep (fontStep r s).2 s).2 s).2 s with
  | error e =>
    rw [hnf] at h
    cases h
  | ok p4 =>
    rw [hnf] at h
    simp only at h
    have hpre4 := numFmtStep_preserves _ s p4 hnf
    have hpre3 := borderStep_preserves (fillStep (fontStep r s).2 s).2 s
    have hpre2 := fillStep_preserves (fontStep r s).2 s
    cases hfi : firstIdx ⟨p4.1, (fontStep r s).1, (fillStep (fontStep r s).2 s).1,
        (borderStep (fillStep (fontStep r s).2 s).2 s).1, s.alignment⟩ p4.2.cell_xfs with
    | some j =>
      rw [hfi] at h
      cases h
      have hfonts : p4.2.fonts = (fontStep r s).2.fonts := by
        rw [hpre4.1, hpre3.1, hpre2.1]
      have hfills : p4.2.fills = (fillStep (fontStep r s).2 s).2.fills := by
        rw [hpre4.2.1, hpre3.2.1]
      have hborders : p4.2.borders =
          (borderStep (fillStep (fontStep r s).2 s).2 s).2.borders := by
        rw [hpre4.2.2.1]
      have e1 : fontStep p4.2 s = ((fontStep r s).1, p4.2) :=
        fontStep_stable r p4.2 s _ _ rfl hfonts
      have e2 : fillStep p4.2 s = ((fillStep (fontStep r s).2 s).1, p4.2) :=
        fillStep_stable (fontStep r s).2 p4.2 s _ _ rfl hfills
      have e3 : borderStep p4.2 s =
          ((borderStep (fillStep (fontStep r s).2 s).2 s).1, p4.2) :=
        borderStep_stable (fillStep (fontStep r s).2 s).2 p4.2 s _ _ rfl hborders
      have e4 : numFmtStep p4.2 s = .ok (p4.1, p4.2) :=
        numFmtStep_stable (borderStep (fillStep (fontStep r s).2 s).2 s).2 p4.2 s
          p4.1 p4.2 hnf rfl
      simp only [e1, e2, e3, e4]
      rw [hfi]
    | none =>
      rw [hfi] at h
      cases h
      have hfonts : p4.2.fonts = (fontStep r s).2.fonts := by
        rw [hpre4.1, hpre3.1, hpre2.1]
      have hfills : p4.2.fills = (fillStep (fontStep r s).2 s).2.fills := by
        rw [hpre4.2.1, hpre3.2.1]
      have hborders : p4.2.borders =
          (borderStep (fillStep (fontStep r s).2 s).2 s).2.borders := by
        rw [hpre4.2.2.1]
      have e1 : fontStep { p4.2 with cell_xfs := p4.2.cell_xfs ++
          [⟨p4.1, (fontStep r s).1, (fillStep (fontStep r s).2 s).1,
            (borderStep (fillStep (fontStep r s).2 s).2 s).1, s.alignment⟩] } s =
          ((fontStep r s).1, { p4.2 with cell_xfs := p4.2.cell_xfs ++
          [⟨p4.1, (fontStep r s).1, (fillStep (fontStep r s).2 s).1,
            (borderStep (fillStep (fontStep r s).2 s).2 s).1, s.alignment⟩] }) :=
        fontStep_stable r _ s _ _ rfl hfonts
      have e2 : fillStep { p4.2 with cell_xfs := p4.2.cell_xfs ++
          [⟨p4.1, (fontStep r s).1, (fillStep (fontStep r s).2 s).1,
            (borderStep (fillStep (fontStep r s).2 s).2 s).1, s.alignment⟩] } s =
          ((fillStep (fontStep r s).2 s).1, { p4.2 with cell_xfs := p4.2.cell_xfs ++
          [⟨p4.1, (fontStep r s).1, (fillStep (fontStep r s).2 s).1,
            (borderStep (fillStep (fontStep r s).2 s).2 s).1, s.alignment⟩] }) :=
        fillStep_stable (fontStep r s).2 _ s _ _ rfl hfills
      have e3 : borderStep { p4.2 with cell_xfs := p4.2.cell_xfs ++
          [⟨p4.1, (fontStep r s).1, (fillStep (fontStep r s).2 s).1,
            (borderStep (fillStep (fontStep r s).2 s).2 s).1, s.alignment⟩] } s =
          ((borderStep (fillStep (fontStep r s).2 s).2 s).1,
            { p4.2 with cell_xfs := p4.2.cell_xfs ++
          [⟨p4.1, (fontStep r s).1, (fillStep (fontStep r s).2 s).1,
            (borderStep (fillStep (fontStep r s).2 s).2 s).1, s.alignment⟩] }) :=
        borderStep_stable (fillStep (fontStep r s).2 s).2 _ s _ _ rfl hborders
      have e4 : numFmtStep { p4.2 with cell_xfs := p4.2.cell_xfs ++
          [⟨p4.1, (fontStep r s).1, (fillStep (fontStep r s).2 s).1,
            (borderStep (fillStep (fontStep r s).2 s).2 s).1, s.alignment⟩] } s =
          .ok (p4.1, { p4.2 with cell_xfs := p4.2.cell_xfs ++
          [⟨p4.1, (fontStep r s).1, (fillStep (fontStep r s).2 s).1,
            (borderStep (fillStep (fontStep r s).2 s).2 s).1, s.alignment⟩] }) :=
        numFmtStep_stable (borderStep (fillStep (fontStep r s).2 s).2 s).2 _ s
          p4.1 p4.2 hnf rfl
      have e5 := firstIdx_append_self
        (⟨p4.1, (fontStep r s).1, (fillStep (fontStep r s).2 s).1,
          (borderStep (fillStep (fontStep r s).2 s).2 s).1, s.alignment⟩ : CellXfEntry)
        p4.2.cell_xfs hfi
      simp only [e1, e2, e3, e4]
      rw [e5]

/-! ## Claims C5, C6, C7: style and number-format interning -/

/-- A sample differential-format style: solid red fill. -/
def dxfSample : CellStyle :=
  { font := none,
    fill := some { pattern_type := .solid, fg_color := some "FFFF0000", bg_color := none },
    border := none, alignment := none, number_format := none }

/-- C5 counterexample: interning the same differential format twice in one
StyleRegistry does NOT return the same dxf id.  register_dxf
(src/styles.rs lines 504-507) appends unconditionally, so the second
registration of the structurally identical style returns id 1 while the
first returned id 0. -/
theorem C5_counterexample :
    (register_dxf StyleRegistry.new dxfSample).1 = 0 ∧
    (register_dxf (register_dxf StyleRegistry.new dxfSample).2 dxfSample).1 = 1 ∧
    (register_dxf (register_dxf StyleRegistry.new dxfSample).2 dxfSample).1 ≠
      (register_dxf StyleRegistry.new dxfSample).1 := by
  refine ⟨rfl, rfl, ?_⟩
  decide

/-- C5 (amended): register_dxf assigns per-call sequential ids: every call
returns the current length of the dxfs table and appends, so a second
registration (even of a structurally equal style) returns the next id, one
larger.  Dxf ids are registration sequence numbers, not deduplicated
intern ids. -/
theorem C5_register_dxf_sequential :
    ∀ (r : StyleRegistry) (s t : CellStyle),
      (register_dxf r s).1 = r.dxfs.length ∧
      (register_dxf (register_dxf r s).2 t).1 = r.dxfs.length + 1 := by
  intro r s t
  refine ⟨rfl, ?_⟩
  simp [register_dxf]

/-- The default Calibri font, structurally equal to the first pre-seeded
registry font. -/
def defaultFontSample : FontStyle :=
  { bold := false, italic := false, underline := false, size := some 11,
    color := none, name := some "Calibri" }

/-- The all-absent cell style. -/
def plainStyle : CellStyle :=
  { font := none, fill := none, border := none, alignment := none,
    number_format := none }

/-- A cell style that names the default font explicitly; structurally
distinct from plainStyle but resolving to the same component ids. -/
def defaultCalibriStyle : CellStyle :=
  { font := some defaultFontSample, fill := none, border := none,
    alignment := none, number_format := none }

/-- C6 counterexample: two structurally distinct cell styles receive the
same id.  plainStyle (no font) and defaultCalibriStyle (font given
explicitly as the default Calibri entry) are different values, yet
register_cell_style maps both to cell-xf id 0, because both resolve to the
component tuple (numFmt 0, font 0, fill 0, border 0, no alignment).  So
interning N structurally distinct styles does not always produce N
distinct ids. -/
theorem C6_counterexample :
    plainStyle ≠ defaultCalibriStyle ∧
    register_cell_style StyleRegistry.new plainStyle =
      .ok (0, StyleRegistry.new) ∧
    register_cell_style StyleRegistry.new defaultCalibriStyle =
      .ok (0, StyleRegistry.new) := by
  refine ⟨by decide, rfl, rfl⟩

/-- C6 (amended): interning the same font, fill, border or cell format
twice always returns the same id (with the registry state unchanged by the
second call), and interning structurally distinct fonts, fills or borders
always yields distinct ids.  For composite cell formats, distinctness of
ids holds for the resolved component tuples, not for the CellStyle values
themselves (see the counterexample). -/
theorem C6_style_dedup_amended :
    (∀ (r : StyleRegistry) (f : FontStyle),
      get_or_add_font (get_or_add_font r f).2 f =
        ((get_or_add_font r f).1, (get_or_add_font r f).2)) ∧
    (∀ (r : StyleRegistry) (f : FillStyle),
      get_or_add_fill (get_or_add_fill r f).2 f =
        ((get_or_add_fill r f).1, (get_or_add_fill r f).2)) ∧
    (∀ (r : StyleRegistry) (b : BorderStyle),
      get_or_add_border (get_or_add_border r b).2 b =
        ((get_or_add_border r b).1, (get_or_add_border r b).2)) ∧
    (∀ (r : StyleRegistry) (s : CellStyle) (i : Nat) (rOut : StyleRegistry),
      register_cell_style r s = .ok (i, rOut) →
        register_cell_style rOut s = .ok (i, rOut)) ∧
    (∀ (r : StyleRegistry) (f g : FontStyle), f ≠ g →
      (get_or_add_font (get_or_add_font r f).2 g).1 ≠ (get_or_add_font r f).1) ∧
    (∀ (r : StyleRegistry) (f g : FillStyle), f ≠ g →
      (get_or_add_fill (get_or_add_fill r f).2 g).1 ≠ (get_or_add_fill r f).1) ∧
    (∀ (r : StyleRegistry) (b c : BorderStyle), b ≠ c →
      (get_or_add_border (get_or_add_border r b).2 c).1 ≠ (get_or_add_border r b).1) :=
  ⟨get_or_add_font_idem, get_or_add_fill_idem, get_or_add_border_idem,
   register_cell_style_idem,
   get_or_add_font_distinct, get_or_add_fill_distinct, get_or_add_border_distinct⟩

/-- The bold Calibri font, structurally equal to the second pre-seeded
registry font. -/
def boldFontSample : FontStyle :=
  { bold := true, italic := false, underline := false, size := some 11,
    color := none, name := some "Calibri" }

/-- A bold-font cell style matching the pre-seeded bold header xf. -/
def boldHeaderStyle : CellStyle :=
  { font := some boldFontSample, fill := none, border := none,
    alignment := none, number_format := none }

/-- A second, distinct font used by the witness. -/
def italicFontSample : FontStyle :=
  { bold := false, italic := true, underline := false, size := some 11,
    color := none, name := some "Arial" }

/-- Witness for C6: the hypotheses of the amended theorem are satisfiable
at concrete inputs.  Registering boldHeaderStyle on the fresh registry
yields id 2 with the registry unchanged; registering it again yields the
same; and the distinct fonts defaultFontSample and italicFontSample get
distinct ids. -/
theorem C6_style_dedup_amended_witness :
    register_cell_style StyleRegistry.new boldHeaderStyle =
      .ok (2, StyleRegistry.new) ∧
    (get_or_add_font (get_or_add_font StyleRegistry.new defaultFontSample).2
        italicFontSample).1 ≠
      (get_or_add_font StyleRegistry.new defaultFontSample).1 :=
  ⟨C6_style_dedup_amended.2.2.2.1 StyleRegistry.new boldHeaderStyle 2
      StyleRegistry.new (by rfl),
   C6_style_dedup_amended.2.2.2.2.1 StyleRegistry.new defaultFontSample
      italicFontSample (by decide)⟩

/-- C7 counterexample: the code rejects the one-space custom format code,
although that code is neither empty nor all-alphabetic.
is_likely_invalid_format also fires on whitespace, so the rejection
predicate of the claim (empty or all-alphabetic) is not exact. -/
theorem C7_counterexample :
    get_or_add_num_fmt StyleRegistry.new (NumberFormat.custom " ") =
      .error ("Invalid format code: " ++ " ") ∧
    (" " : String) ≠ "" ∧
    (" ".data.all Char.isAlpha) = false := by
  refine ⟨rfl, by decide, by decide⟩

/-- C7 (amended): resolving a custom number-format code errors exactly
when the code is not already interned and is empty or consists solely of
alphabetic and whitespace characters; registering the identical code twice
yields the same numFmtId with the registry unchanged by the second call;
a new valid code receives the current next id (starting at 178 on a fresh
registry) and the counter increments, so distinct codes get sequential
ids in registration order. -/
theorem C7_custom_format_amended :
    (∀ (r : StyleRegistry) (code : String),
      (∃ e, get_or_add_num_fmt r (NumberFormat.custom code) = .error e) ↔
        (findCustom code r.custom_num_fmts = none ∧
          is_likely_invalid_format code = true)) ∧
    (∀ (r : StyleRegistry) (code : String) (n : Nat) (r1 : StyleRegistry),
      get_or_add_num_fmt r (NumberFormat.custom code) = .ok (n, r1) →
        get_or_add_num_fmt r1 (NumberFormat.custom code) = .ok (n, r1)) ∧
    (∀ (r : StyleRegistry) (code : String),
      findCustom code r.custom_num_fmts = none →
      is_likely_invalid_format code = false →
        get_or_add_num_fmt r (NumberFormat.custom code) =
          .ok (r.next_custom_fmt_id,
            { r with
              custom_num_fmts :=
                r.custom_num_fmts ++ [(r.next_custom_fmt_id, code)],
              next_custom_fmt_id := r.next_custom_fmt_id + 1 })) ∧
    StyleRegistry.new.next_custom_fmt_id = 178 := by
  refine ⟨?_, ?_, ?_, rfl⟩
  · intro r code
    unfold get_or_add_num_fmt
    simp only [fmt_info]
    cases hfc : findCustom code r.custom_num_fmts with
    | some j => simp
    | none =>
      by_cases hinv : is_likely_invalid_format code
      · simp [hinv]
      · simp [hinv]
  · intro r code n r1 h
    exact get_or_add_num_fmt_stable r r1 (NumberFormat.custom code) n r1 h rfl
  · intro r code hfc hinv
    unfold get_or_add_num_fmt
    simp only [fmt_info]
    rw [hfc, if_neg (by simp [hinv])]

/-- Witness for C7: the hypotheses of the amended theorem hold at concrete
inputs.  The fresh registry does not yet intern the code 0.000 and that
code is valid, so it is assigned id 178 and the counter moves to 179. -/
theorem C7_custom_format_amended_witness :
    get_or_add_num_fmt StyleRegistry.new (NumberFormat.custom "0.000") =
      .ok (StyleRegistry.new.next_custom_fmt_id,
        { StyleRegistry.new with
          custom_num_fmts := StyleRegistry.new.custom_num_fmts ++
            [(StyleRegistry.new.next_custom_fmt_id, "0.000")],
          next_custom_fmt_id := StyleRegistry.new.next_custom_fmt_id + 1 }) :=
  C7_custom_format_amended.2.2.1 StyleRegistry.new "0.000" rfl (by decide)

/-! ## Validator embedding (src/validation.rs)

Models validate_style_config and its helpers.  Only the fields the
validator reads are carried; error values are structured constructors, one
per format! site in the source, so that the error COUNT and order match
the pushed strings one for one.  HashMap and HashSet iteration is modelled
with association lists; the heights and widths maps appear in the order of
the list.  Note: validation.rs is not declared as a module in lib.rs (the
crate never compiles or calls it), and its call
validate_column_widths(widths) would not even typecheck against the
ColumnWidth-valued field; the widths map is modelled here with the
rational values the callee expects. -/

def MAX_ROWS : Nat := 1048576

def MAX_COLS : Nat := 16384

def MAX_ROW_HEIGHT : ℚ := 819 / 2

def MAX_COL_WIDTH : ℚ := 255

structure MergeRange where
  start_row : Nat
  start_col : Nat
  end_row : Nat
  end_col : Nat
deriving DecidableEq, Repr

/-- ExcelTable restricted to the fields validate_table and
validate_table_names read: the name, display name and range tuple. -/
structure ExcelTableV where
  name : String
  display_name : String
  start_row : Nat
  start_col : Nat
  end_row : Nat
  end_col : Nat
deriving DecidableEq, Repr

/-- ExcelChart restricted to the fields validate_chart reads: the data
range and the optional category column. -/
structure ExcelChartV where
  start_row : Nat
  start_col : Nat
  end_row : Nat
  end_col : Nat
  category_col : Option Nat
deriving DecidableEq, Repr

/-- ConditionalFormat restricted to the fields
validate_conditional_formats reads: the range and the priority. -/
structure ConditionalFormatV where
  start_row : Nat
  start_col : Nat
  end_row : Nat
  end_col : Nat
  priority : Nat
deriving DecidableEq, Repr

structure HyperlinkV where
  row : Nat
  col : Nat
  url : String
deriving DecidableEq, Repr

structure FormulaV where
  row : Nat
  col : Nat
  formula : String
deriving DecidableEq, Repr

/-- Cell coordinates of a per-cell style override (the style payload is
not read by the validator). -/
structure CellStyleMapV where
  row : Nat
  col : Nat
deriving DecidableEq, Repr

/-- StyleConfig restricted to the fields validate_style_config reads. -/
structure StyleConfigV where
  merge_cells : List MergeRange
  tables : List ExcelTableV
  charts : List ExcelChartV
  row_heights : Option (List (Nat × ℚ))
  column_widths : Option (List (String × ℚ))
  freeze_rows : Nat
  freeze_cols : Nat
  conditional_formats : List ConditionalFormatV
  cell_styles : List CellStyleMapV
  hyperlinks : List HyperlinkV
  formulas : List FormulaV
deriving DecidableEq, Repr

/-- An all-empty configuration, mirroring StyleConfig::default for the
validator-visible fields. -/
def StyleConfigV.default : StyleConfigV :=
  { merge_cells := [], tables := [], charts := [], row_heights := none,
    column_widths := none, freeze_rows := 0, freeze_cols := 0,
    conditional_formats := [], cell_styles := [], hyperlinks := [],
    formulas := [] }

inductive CoordErr
  | rowOutOfRange (row : Nat)
  | colOutOfRange (col : Nat)
deriving DecidableEq, Repr

/-- validate_cell_coords from src/validation.rs lines 130-146. -/
def validate_cell_coords (row col : Nat) : Except CoordErr Unit :=
  if row > MAX_ROWS then .error (.rowOutOfRange row)
  else if col ≥ MAX_COLS then .error (.colOutOfRange col)
  else .ok ()

inductive MergeRangeErr
  | startRowGtEndRow
  | startColGtEndCol
  | startCoord (e : CoordErr)
  | endCoord (e : CoordErr)
  | endRowExceedsData
  | endColExceedsData
deriving DecidableEq, Repr

/-- validate_merge_range from src/validation.rs lines 149-182. -/
def validate_merge_range (m : MergeRange) (max_row max_col : Nat) :
    Except MergeRangeErr Unit :=
  if m.start_row > m.end_row then .error .startRowGtEndRow
  else if m.start_col > m.end_col then .error .startColGtEndCol
  else match validate_cell_coords m.start_row m.start_col with
  | .error e => .error (.startCoord e)
  | .ok _ =>
    match validate_cell_coords m.end_row m.end_col with
    | .error e => .error (.endCoord e)
    | .ok _ =>
      if m.end_row > max_row then .error .endRowExceedsData
      else if m.end_col ≥ max_col then .error .endColExceedsData
      else .ok ()

/-- ranges_overlap from src/validation.rs lines 200-205. -/
def ranges_overlap (m1 m2 : MergeRange) : Bool :=
  !(decide (m1.end_row < m2.start_row) || decide (m1.start_row > m2.end_row) ||
    decide (m1.end_col < m2.start_col) || decide (m1.start_col > m2.end_col))

/-- validate_merge_overlaps from src/validation.rs lines 185-198: the
nested loop returns an error for the FIRST overlapping pair (i, j with
j greater than i) and checks nothing further. -/
def validate_merge_overlaps : List MergeRange → Except (MergeRange × MergeRange) Unit
  | [] => .ok ()
  | m :: rest =>
    match rest.find? (fun m2 => ranges_overlap m m2) with
    | some m2 => .error (m, m2)
    | none => validate_merge_overlaps rest

inductive TableErr
  | nameEmpty
  | displayNameEmpty
  | nameStartInvalid
  | nameCharsInvalid
  | startCoord (e : CoordErr)
  | endCoord (e : CoordErr)
  | invalidRange
  | exceedsBounds
  | tooFewRows
deriving DecidableEq, Repr

/-- validate_table from src/validation.rs lines 208-251.  The head of the
name is inspected only after the empty check, matching the unwrap in the
source. -/
def validate_table (t : ExcelTableV) (max_row max_col : Nat) :
    Except TableErr Unit :=
  match t.name.data with
  | [] => .error .nameEmpty
  | c0 :: restChars =>
    if t.display_name = "" then .error .displayNameEmpty
    else if ¬ (c0.isAlpha || c0 = '_') then .error .nameStartInvalid
    else if ¬ (c0 :: restChars).all (fun c => c.isAlphanum || c = '_') then
      .error .nameCharsInvalid
    else match validate_cell_coords t.start_row t.start_col with
    | .error e => .error (.startCoord e)
    | .ok _ =>
      match validate_cell_coords t.end_row t.end_col with
      | .error e => .error (.endCoord e)
      | .ok _ =>
        if t.start_row > t.end_row || t.start_col > t.end_col then
          .error .invalidRange
        else if t.end_row > max_row || t.end_col ≥ max_col then
          .error .exceedsBounds
        else if t.end_row ≤ t.start_row then .error .tooFewRows
        else .ok ()

inductive TableNamesErr
  | duplicateName (name : String)
  | displayNameConflict (name : String)
deriving DecidableEq, Repr

/-- validate_table_names from src/validation.rs lines 254-279, with the
HashSet of seen lowercase names as an accumulating list. -/
def validate_table_names_aux (seen : List String) :
    List ExcelTableV → Except TableNamesErr Unit
  | [] => .ok ()
  | t :: rest =>
    let lower := t.name.toLower
    if lower ∈ seen then .error (.duplicateName t.name)
    else
      let display_lower := t.display_name.toLower
      if display_lower ≠ lower ∧ display_lower ∈ seen then
        .error (.displayNameConflict t.display_name)
      else validate_table_names_aux (lower :: seen) rest

def validate_table_names (tables : List ExcelTableV) : Except TableNamesErr Unit :=
  validate_table_names_aux [] tables

inductive ChartErr
  | startCoord (e : CoordErr)
  | endCoord (e : CoordErr)
  | invalidRange
  | exceedsBounds
  | categoryOutOfRange (cat : Nat)
deriving DecidableEq, Repr

/-- validate_chart from src/validation.rs lines 282-307. -/
def validate_chart (c : ExcelChartV) (max_row max_col : Nat) :
    Except ChartErr Unit :=
  match validate_cell_coords c.start_row c.start_col with
  | .error e => .error (.startCoord e)
  | .ok _ =>
    match validate_cell_coords c.end_row c.end_col with
    | .error e => .error (.endCoord e)
    | .ok _ =>
      if c.start_row > c.end_row || c.start_col > c.end_col then
        .error .invalidRange
      else if c.end_row > max_row || c.end_col ≥ max_col then
        .error .exceedsBounds
      else match c.category_col with
      | some cat =>
        if cat < c.start_col || cat > c.end_col then
          .error (.categoryOutOfRange cat)
        else .ok ()
      | none => .ok ()

inductive RowHeightErr
  | rowOutOfRange (row : Nat)
  | heightOutOfRange (row : Nat)
deriving DecidableEq, Repr

/-- validate_row_heights from src/validation.rs lines 310-324: first
offending entry only. -/
def validate_row_heights : List (Nat × ℚ) → Except RowHeightErr Unit
  | [] => .ok ()
  | (row, height) :: rest =>
    if row = 0 || row > MAX_ROWS then .error (.rowOutOfRange row)
    else if height < 0 || height > MAX_ROW_HEIGHT then
      .error (.heightOutOfRange row)
    else validate_row_heights rest

inductive ColWidthErr
  | widthOutOfRange (name : String)
deriving DecidableEq, Repr

/-- validate_column_widths from src/validation.rs lines 327-337: first
offending entry only. -/
def validate_column_widths : List (String × ℚ) → Except ColWidthErr Unit
  | [] => .ok ()
  | (colName, width) :: rest =>
    if width < 0 || width > MAX_COL_WIDTH then .error (.widthOutOfRange colName)
    else validate_column_widths rest

inductive FreezeErr
  | rowsExceed
  | colsExceed
deriving DecidableEq, Repr

/-- validate_freeze_panes from src/validation.rs lines 340-356. -/
def validate_freeze_panes (freeze_rows freeze_cols max_row max_col : Nat) :
    Except FreezeErr Unit :=
  if freeze_rows ≥ max_row then .error .rowsExceed
  else if freeze_cols ≥ max_col then .error .colsExceed
  else .ok ()

inductive CondFmtErr
  | duplicatePriority (firstIdxSeen idx : Nat)
  | startCoord (idx : Nat) (e : CoordErr)
  | endCoord (idx : Nat) (e : CoordErr)
  | invalidRange (idx : Nat)
deriving DecidableEq, Repr

/-- validate_conditional_formats from src/validation.rs lines 359-384:
single pass, first error only; the priorities HashMap is an association
list from priority to the index that first used it. -/
def validate_conditional_formats_aux (priorities : List (Nat × Nat)) (idx : Nat) :
    List ConditionalFormatV → Except CondFmtErr Unit
  | [] => .ok ()
  | f :: rest =>
    match priorities.find? (fun p => p.1 = f.priority) with
    | some p => .error (.duplicatePriority p.2 idx)
    | none =>
      match validate_cell_coords f.start_row f.start_col with
      | .error e => .error (.startCoord idx e)
      | .ok _ =>
        match validate_cell_coords f.end_row f.end_col with
        | .error e => .error (.endCoord idx e)
        | .ok _ =>
          if f.start_row > f.end_row || f.start_col > f.end_col then
            .error (.invalidRange idx)
          else
            validate_conditional_formats_aux ((f.priority, idx) :: priorities)
              (idx + 1) rest

def validate_conditional_formats (formats : List ConditionalFormatV) :
    Except CondFmtErr Unit :=
  validate_conditional_formats_aux [] 0 formats

/-- One constructor per add_error site in validate_style_config. -/
inductive VError
  | mergeCell (idx : Nat) (e : MergeRangeErr)
  | mergeOverlap (m1 m2 : MergeRange)
  | table (idx : Nat) (e : TableErr)
  | tableNames (e : TableNamesErr)
  | chart (idx : Nat) (e : ChartErr)
  | rowHeights (e : RowHeightErr)
  | colWidths (e : ColWidthErr)
  | freeze (e : FreezeErr)
  | condFormats (e : CondFmtErr)
  | cellStyleCoord (idx : Nat) (e : CoordErr)
  | hyperlinkCoord (idx : Nat) (e : CoordErr)
  | hyperlinkEmptyUrl (idx : Nat)
  | formulaCoord (idx : Nat) (e : CoordErr)
  | formulaEmpty (idx : Nat)
deriving DecidableEq, Repr

/-- The single add_warning site in validate_style_config. -/
inductive VWarning
  | formulaHyperlinkConflict (idx row col : Nat)
deriving DecidableEq, Repr

/-- Turns the error of a sub-check into a zero- or one-element list. -/
def errToList {α β : Type} (wrap : α → β) : Except α Unit → List β
  | .error e => [wrap e]
  | .ok _ => []

/-- validate_style_config from src/validation.rs lines 387-485: the
per-category checks run in source order and push onto the shared error
vector.  The result pairs the error list with the warning list. -/
def validate_style_config (config : StyleConfigV) (max_row max_col : Nat) :
    List VError × List VWarning :=
  let mergeErrs := config.merge_cells.enum.filterMap (fun p =>
    match validate_merge_range p.2 max_row max_col with
    | .error e => some (VError.mergeCell p.1 e)
    | .ok _ => none)
  let overlapErrs := errToList (fun p => VError.mergeOverlap p.1 p.2)
    (validate_merge_overlaps config.merge_cells)
  let tableErrs := config.tables.enum.filterMap (fun p =>
    match validate_table p.2 max_row max_col with
    | .error e => some (VError.table p.1 e)
    | .ok _ => none)
  let tableNameErrs := errToList VError.tableNames
    (validate_table_names config.tables)
  let chartErrs := config.charts.enum.filterMap (fun p =>
    match validate_chart p.2 max_row max_col with
    | .error e => some (VError.chart p.1 e)
    | .ok _ => none)
  let rowHeightErrs :=
    match config.row_heights with
    | some hs => errToList VError.rowHeights (validate_row_heights hs)
    | none => []
  let colWidthErrs :=
    match config.column_widths with
    | some ws => errToList VError.colWidths (validate_column_widths ws)
    | none => []
  let freezeErrs :=
    if config.freeze_rows > 0 || config.freeze_cols > 0 then
      errToList VError.freeze
        (validate_freeze_panes config.freeze_rows config.freeze_cols
          max_row max_col)
    else []
  let condFmtErrs :=
    if ¬ config.conditional_formats.isEmpty then
      errToList VError.condFormats
        (validate_conditional_formats config.conditional_formats)
    else []
  let cellStyleErrs := config.cell_styles.enum.filterMap (fun p =>
    match validate_cell_coords p.2.row p.2.col with
    | .error e => some (VError.cellStyleCoord p.1 e)
    | .ok _ => none)
  let hyperlinkErrs := config.hyperlinks.enum.flatMap (fun p =>
    (errToList (VError.hyperlinkCoord p.1)
      (validate_cell_coords p.2.row p.2.col)) ++
    (if p.2.url = "" then [VError.hyperlinkEmptyUrl p.1] else []))
  let formulaErrs := config.formulas.enum.flatMap (fun p =>
    (errToList (VError.formulaCoord p.1)
      (validate_cell_coords p.2.row p.2.col)) ++
    (if p.2.formula = "" then [VError.formulaEmpty p.1] else []))
  let warnings := config.formulas.enum.filterMap (fun p =>
    if config.hyperlinks.any (fun h => h.row = p.2.row && h.col = p.2.col) then
      some (VWarning.formulaHyperlinkConflict p.1 p.2.row p.2.col)
    else none)
  (mergeErrs ++ overlapErrs ++ tableErrs ++ tableNameErrs ++ chartErrs ++
    rowHeightErrs ++ colWidthErrs ++ freezeErrs ++ condFmtErrs ++
    cellStyleErrs ++ hyperlinkErrs ++ formulaErrs, warnings)

/-! ## Claim C2: validation completeness -/

def mergeA : MergeRange := ⟨1, 0, 2, 1⟩

def mergeB : MergeRange := ⟨2, 0, 3, 1⟩

def mergeC : MergeRange := ⟨10, 0, 11, 1⟩

def mergeD : MergeRange := ⟨11, 0, 12, 1⟩

/-- Four individually valid merges forming two disjoint overlapping pairs:
A overlaps B, C overlaps D, and no cross pair overlaps. -/
def cfgTwoOverlapPairs : StyleConfigV :=
  { StyleConfigV.default with merge_cells := [mergeA, mergeB, mergeC, mergeD] }

/-- C2 counterexample: a sheet configuration with two independent
violations (two disjoint overlapping merge pairs) produces only ONE error
entry, not two.  validate_merge_overlaps returns on the first overlapping
pair, so the C overlaps D violation is silently dropped: validation does
not accumulate every violation. -/
theorem C2_counterexample :
    ranges_overlap mergeA mergeB = true ∧
    ranges_overlap mergeC mergeD = true ∧
    ranges_overlap mergeA mergeC = false ∧
    ranges_overlap mergeA mergeD = false ∧
    ranges_overlap mergeB mergeC = false ∧
    ranges_overlap mergeB mergeD = false ∧
    (validate_style_config cfgTwoOverlapPairs 100 10).1 =
      [VError.mergeOverlap mergeA mergeB] := by
  refine ⟨rfl, rfl, rfl, rfl, rfl, rfl, ?_⟩
  decide

/-- A chart whose data range exceeds the sheet bounds (end row 200 with
100 data rows). -/
def chartOutOfRange : ExcelChartV := ⟨0, 0, 200, 1, none⟩

/-- A chart with an inverted data range. -/
def chartInvertedRange : ExcelChartV := ⟨5, 5, 1, 1, none⟩

def condP1 : ConditionalFormatV := ⟨0, 0, 1, 1, 1⟩

/-- A second conditional format with the same priority 1. -/
def condP1dup : ConditionalFormatV := ⟨2, 0, 3, 1, 1⟩

/-- The configuration of the claim example: two overlapping merges, one
out-of-range chart, one duplicate conditional-format priority. -/
def cfgSpecExample : StyleConfigV :=
  { StyleConfigV.default with
    merge_cells := [mergeA, mergeB],
    charts := [chartOutOfRange],
    conditional_formats := [condP1, condP1dup] }

/-- Two independently invalid charts. -/
def cfgTwoBadCharts : StyleConfigV :=
  { StyleConfigV.default with charts := [chartOutOfRange, chartInvertedRange] }

/-- C2 (amended): validation accumulates violations ACROSS categories and
across items of the per-item checks (merges, tables, charts, cell styles,
hyperlinks, formulas), but the overlap, table-name, conditional-format,
row-height and column-width checks each contribute at most their first
violation.  The claim example (one overlapping merge pair, one
out-of-range chart, one duplicate priority) yields exactly its three
error entries, and two independently invalid charts yield two entries;
multiple independent violations inside one first-error-only category
collapse to one entry (see the counterexample). -/
theorem C2_validation_amended :
    (validate_style_config cfgSpecExample 100 10).1 =
      [VError.mergeOverlap mergeA mergeB,
       VError.chart 0 ChartErr.exceedsBounds,
       VError.condFormats (CondFmtErr.duplicatePriority 0 1)] ∧
    (validate_style_config cfgTwoBadCharts 100 10).1 =
      [VError.chart 0 ChartErr.exceedsBounds,
       VError.chart 1 ChartErr.invalidRange] := by
  constructor
  · decide
  · decide

/-! ## Claim C1: atomic commit

A small filesystem model: a map from path to byte content.  The two
commit routines are translated as state transitions with injected
operation outcomes (whether each fallible call succeeds), since the
filesystem errors themselves are environmental. -/

def FS : Type := String → Option (List Nat)

def FS.set (fs : FS) (p : String) (v : Option (List Nat)) : FS :=
  fun q => if q = p then v else fs q

/-- WriteError from src/types.rs, by kind (payloads dropped). -/
inductive WE
  | io
  | validation
deriving DecidableEq, Repr

/-- Outcome of zipper.write: success, or failure after some prefix of the
bytes was written to the (already created) file. -/
inductive ZipWriteOutcome
  | ok
  | failAt (written : List Nat)
deriving DecidableEq, Repr

structure ZipFileOutcomes where
  createOk : Bool
  writeOutcome : ZipWriteOutcome
  flushOk : Bool
  syncOk : Bool
deriving DecidableEq, Repr

/-- write_zip_to_file from src/writer.rs lines 675-682, the commit routine
actually used by every write entry point: File::create(filename) opens
and TRUNCATES the final target path directly, zipper.write streams into
it (a failure there is mapped to WriteError::Validation of the message),
then flush and sync_all.  No temp file and no rename are involved. -/
def write_zip_to_file (fs : FS) (filename : String) (zipBytes : List Nat)
    (oc : ZipFileOutcomes) : Except WE Unit × FS :=
  if ¬ oc.createOk then (.error .io, fs)
  else
    let fs1 := fs.set filename (some [])
    match oc.writeOutcome with
    | .failAt written => (.error .validation, fs1.set filename (some written))
    | .ok =>
      let fs2 := fs1.set filename (some zipBytes)
      if ¬ oc.flushOk then (.error .io, fs2)
      else if ¬ oc.syncOk then (.error .io, fs2)
      else (.ok (), fs2)

structure AtomicOutcomes where
  createOk : Bool
  writeOk : Bool
  flushOk : Bool
  syncOk : Bool
  renameOk : Bool
deriving DecidableEq, Repr

/-- The temp path built in write_file_atomic (src/validation.rs line
510). -/
def tempName (filename : String) (pid : Nat) : String :=
  filename ++ (".tmp." ++ toString pid)

/-- write_file_atomic from src/validation.rs lines 488-542 (present in
the repository but never called: validation.rs is not declared as a
module in lib.rs).  Create the temp file, run the write closure, flush,
sync, and on success rename over the target; failures of create, write,
flush or sync remove the temp file, while a failed RENAME returns the
error without the cleanup branch. -/
def write_file_atomic (fs : FS) (filename : String) (pid : Nat)
    (content : List Nat) (parentExists : Bool) (oc : AtomicOutcomes) :
    Except WE Unit × FS :=
  if filename = "" then (.error .validation, fs)
  else if ¬ parentExists then (.error .validation, fs)
  else
    let temp := tempName filename pid
    if ¬ oc.createOk then (.error .io, fs.set temp none)
    else
      let fs1 := fs.set temp (some [])
      if ¬ oc.writeOk then (.error .io, fs1.set temp none)
      else
        let fs2 := fs1.set temp (some content)
        if ¬ oc.flushOk then (.error .io, fs2.set temp none)
        else if ¬ oc.syncOk then (.error .io, fs2.set temp none)
        else if ¬ oc.renameOk then (.error .io, fs2)
        else (.ok (), (fs2.set temp none).set filename (some content))

theorem tempName_ne (filename : String) (pid : Nat) :
    tempName filename pid ≠ filename := by
  intro h
  have hlen := congrArg String.length h
  rw [tempName, String.length_append, String.length_append] at hlen
  have h5 : (".tmp." : String).length = 5 := rfl
  omega

/-- Supporting fact: in write_file_atomic as written, failures of the
write closure, flush or sync do roll back: the target is unchanged and
the temp file is gone. -/
theorem write_file_atomic_write_phase_rollback (fs : FS) (filename : String)
    (pid : Nat) (content : List Nat) (oc : AtomicOutcomes)
    (hname : filename ≠ "") (hcreate : oc.createOk = true)
    (hfail : oc.writeOk = false ∨ oc.flushOk = false ∨ oc.syncOk = false) :
    (write_file_atomic fs filename pid content true oc).2
        (tempName filename pid) = none ∧
    (write_file_atomic fs filename pid content true oc).2 filename =
      fs filename := by
  have hne : filename ≠ tempName filename pid :=
    fun h => tempName_ne filename pid h.symm
  unfold write_file_atomic
  rw [if_neg hname]
  simp only [not_true, if_neg, hcreate, Bool.not_true, Bool.false_eq_true,
    if_false, not_false_eq_true, if_true, ite_not]
  rcases hfail with hw | hf | hs
  · rw [hw]
    constructor
    · simp [FS.set]
    · simp [FS.set, hne]
  · cases hwk : oc.writeOk with
    | false =>
      constructor
      · simp [FS.set]
      · simp [FS.set, hne]
    | true =>
      rw [hf]
      constructor
      · simp [FS.set]
      · simp [FS.set, hne]
  · cases hwk : oc.writeOk with
    | false =>
      constructor
      · simp [FS.set]
      · simp [FS.set, hne]
    | true =>
      cases hfk : oc.flushOk with
      | false =>
        constructor
        · simp [FS.set]
        · simp [FS.set, hne]
      | true =>
        rw [hs]
        constructor
        · simp [FS.set]
        · simp [FS.set, hne]

/-- Supporting fact: when only the final rename fails, write_file_atomic
leaves the target unchanged but the temp file REMAINS (the error path of
the rename has no cleanup). -/
theorem write_file_atomic_rename_leak (fs : FS) (filename : String)
    (pid : Nat) (content : List Nat) (hname : filename ≠ "") :
    (write_file_atomic fs filename pid content true
        ⟨true, true, true, true, false⟩).1 = .error WE.io ∧
    (write_file_atomic fs filename pid content true
        ⟨true, true, true, true, false⟩).2 (tempName filename pid) =
      some content ∧
    (write_file_atomic fs filename pid content true
        ⟨true, true, true, true, false⟩).2 filename = fs filename := by
  have hne : filename ≠ tempName filename pid :=
    fun h => tempName_ne filename pid h.symm
  unfold write_file_atomic
  rw [if_neg hname]
  refine ⟨by simp, by simp [FS.set], by simp [FS.set, hne]⟩

/-- A filesystem in which the target workbook already exists with content
bytes 1, 2, 3. -/
def fsBook : FS := fun p => if p = "book.xlsx" then some [1, 2, 3] else none

/-- C1: the package commit is NOT atomic.  Every write call ends in
write_zip_to_file, which creates the final path directly; at the concrete
failing input (zip write fails after one byte), the routine returns an
error yet the target file has been truncated and overwritten with the
partial byte 7 in place of its previous content 1, 2, 3 - so on failure
the target path is changed, contradicting the claim.  No temp file is
involved at all (the path book.xlsx.tmp.42 stays absent); the temp-then-
rename helper write_file_atomic exists in validation.rs but that module
is never compiled into the crate and no caller invokes it. -/
theorem C1_commit_not_atomic :
    (write_zip_to_file fsBook "book.xlsx" [7, 7, 7, 7]
        ⟨true, .failAt [7], true, true⟩).1 = .error WE.validation ∧
    (write_zip_to_file fsBook "book.xlsx" [7, 7, 7, 7]
        ⟨true, .failAt [7], true, true⟩).2 "book.xlsx" = some [7] ∧
    fsBook "book.xlsx" = some [1, 2, 3] ∧
    (some [7] : Option (List Nat)) ≠ some [1, 2, 3] ∧
    (write_zip_to_file fsBook "book.xlsx" [7, 7, 7, 7]
        ⟨true, .failAt [7], true, true⟩).2 (tempName "book.xlsx" 42) = none := by
  refine ⟨rfl, by decide, by decide, by decide, by decide⟩

/-! ## Claims C3 and C4: global id assembly and drawing relationships -/

/-- Per-sheet part counts read by the assembly loop. -/
structure SheetCfgCounts where
  tables : Nat
  charts : Nat
  images : Nat
deriving DecidableEq, Repr

/-- The chart targets emitted by generate_drawing_rels_combined
(src/xml.rs lines 2991-3007): relationship rIdChart i points at chart
file number i for i = 1 .. num_charts, a numbering LOCAL to the sheet and
always starting at 1. -/
def drawing_rels_chart_targets (num_charts : Nat) : List Nat :=
  (List.range num_charts).map (fun i => i + 1)

/-- What the assembly loop stores for one sheet: the global file numbers
of its table parts and chart parts, its drawing number, and the chart
file numbers referenced by its drawing rels. -/
structure SheetParts where
  tablePartIds : List Nat
  chartPartIds : List Nat
  drawingId : Option Nat
  relsChartTargets : List Nat
deriving DecidableEq, Repr

/-- The sequential assembly loop of
write_multiple_sheets_arrow_with_configs (src/writer.rs lines 478-590):
global_table_id, global_chart_id and drawing_id start at 1 and advance
across sheets in declaration order; each sheet's table parts take
consecutive global table ids, its chart parts consecutive global chart
ids, and its drawing (present when it has charts or images) takes the
current drawing id, while its drawing rels come from
generate_drawing_rels_combined applied to the LOCAL chart count. -/
def assembleParts : Nat → Nat → Nat → List SheetCfgCounts → List SheetParts
  | _, _, _, [] => []
  | tId, cId, dId, cfg :: rest =>
    let hasDrawing : Bool := cfg.charts != 0 || cfg.images != 0
    { tablePartIds := (List.range cfg.tables).map (fun i => tId + i),
      chartPartIds := (List.range cfg.charts).map (fun i => cId + i),
      drawingId := if hasDrawing then some dId else none,
      relsChartTargets :=
        if hasDrawing then drawing_rels_chart_targets cfg.charts else [] } ::
      assembleParts (tId + cfg.tables) (cId + cfg.charts)
        (if hasDrawing then dId + 1 else dId) rest

/-- The assembly entry state: all three id counters start at 1
(src/writer.rs lines 478-480). -/
def assemble (sheets : List SheetCfgCounts) : List SheetParts :=
  assembleParts 1 1 1 sheets

def totalCharts (sheets : List SheetCfgCounts) : Nat :=
  (sheets.map (fun s => s.charts)).sum

def totalTables (sheets : List SheetCfgCounts) : Nat :=
  (sheets.map (fun s => s.tables)).sum

theorem assembleParts_chartIds (sheets : List SheetCfgCounts) :
    ∀ (tId cId dId : Nat),
      ((assembleParts tId cId dId sheets).map (fun p => p.chartPartIds)).flatten =
        (List.range (totalCharts sheets)).map (fun i => cId + i) := by
  induction sheets with
  | nil => intro tId cId dId; simp [assembleParts, totalCharts]
  | cons cfg rest ih =>
    intro tId cId dId
    simp only [assembleParts, List.map_cons, List.flatten_cons, totalCharts,
      List.sum_cons] at *
    rw [ih]
    rw [List.range_add, List.map_append, List.map_map]
    congr 1
    apply List.map_congr_left
    intro i _
    simp [Function.comp, Nat.add_assoc]

theorem assembleParts_tableIds (sheets : List SheetCfgCounts) :
    ∀ (tId cId dId : Nat),
      ((assembleParts tId cId dId sheets).map (fun p => p.tablePartIds)).flatten =
        (List.range (totalTables sheets)).map (fun i => tId + i) := by
  induction sheets with
  | nil => intro tId cId dId; simp [assembleParts, totalTables]
  | cons cfg rest ih =>
    intro tId cId dId
    simp only [assembleParts, List.map_cons, List.flatten_cons, totalTables,
      List.sum_cons] at *
    rw [ih]
    rw [List.range_add, List.map_append, List.map_map]
    congr 1
    apply List.map_congr_left
    intro i _
    simp [Function.comp, Nat.add_assoc]

/-- The claim scenario: three sheets; sheets 1 and 3 each define two
charts, sheet 2 defines one table. -/
def threeSheetScenario : List SheetCfgCounts :=
  [⟨0, 2, 0⟩, ⟨1, 0, 0⟩, ⟨0, 2, 0⟩]

/-- C3: table and chart parts are numbered from workbook-wide
monotonically increasing sequences assigned in sheet-declaration order by
the sequential assembly loop.  In general the chart part numbers across
all sheets, in order, are exactly 1 .. total number of charts (no
collisions, no gaps), and likewise for tables; in the three-sheet
scenario of the claim the chart ids per sheet are 1,2 then none then 3,4
and the only table id is 1. -/
theorem C3_global_ids :
    (∀ sheets : List SheetCfgCounts,
      ((assemble sheets).map (fun p => p.chartPartIds)).flatten =
        (List.range (totalCharts sheets)).map (fun i => 1 + i)) ∧
    (∀ sheets : List SheetCfgCounts,
      ((assemble sheets).map (fun p => p.tablePartIds)).flatten =
        (List.range (totalTables sheets)).map (fun i => 1 + i)) ∧
    (assemble threeSheetScenario).map (fun p => p.chartPartIds) =
      [[1, 2], [], [3, 4]] ∧
    (assemble threeSheetScenario).map (fun p => p.tablePartIds) =
      [[], [1], []] := by
  refine ⟨?_, ?_, by decide, by decide⟩
  · intro sheets
    exact assembleParts_chartIds sheets 1 1 1
  · intro sheets
    exact assembleParts_tableIds sheets 1 1 1

/-- Two sheets with one chart each. -/
def twoSheetsOneChartEach : List SheetCfgCounts := [⟨0, 1, 0⟩, ⟨0, 1, 0⟩]

/-- C4: the drawing relationships do NOT point at the chart parts under
which the chart XML was stored.  For two sheets with one chart each, the
chart parts are stored under the global numbers 1 and 2 (sheet order),
but each sheet's drawing rels map rIdChart1 to chart file number 1 -
generate_drawing_rels_combined numbers targets locally from 1, while the
loop stores the parts under global_chart_id; the variable
sheet_start_chart_id that was evidently meant to reconcile the two is
computed at src/writer.rs line 551 and never used.  Sheet 2's rIdChart1
therefore resolves to sheet 1's chart part. -/
theorem C4_drawing_rels_mismatch :
    (assemble twoSheetsOneChartEach).map (fun p => p.chartPartIds) =
      [[1], [2]] ∧
    (assemble twoSheetsOneChartEach).map (fun p => p.relsChartTargets) =
      [[1], [1]] ∧
    ([[1], [1]] : List (List Nat)) ≠ [[1], [2]] := by
  refine ⟨by decide, by decide, by decide⟩

/-! ## Claim C8: numeric cell formatting -/

/-- An f64 value as the number-cell writer observes it: a finite value
(modelled as the rational it denotes) or one of the non-finite values. -/
inductive F64
  | finite (q : ℚ)
  | nan
  | inf
  | negInf
deriving DecidableEq, Repr

/-- The body written for a numeric cell: an empty self-closing cell
element, a value element holding the itoa integer rendering, or a value
element holding the ryu shortest round-trip rendering of the double. -/
inductive NumCellBody
  | empty
  | intText (n : Int)
  | floatText (q : ℚ)
deriving DecidableEq, Repr

/-- write_number_cell from src/xml.rs lines 2633-2671: non-finite values
produce an empty cell; a finite value with fract() equal to zero (here:
denominator 1), absolute value below 9007199254740992 (2 to the 53) and
absolute value above zero is cast to i64 (the numerator) and written with
the itoa integer formatter; every other finite value goes through the ryu
float formatter. -/
def write_number_cell : F64 → NumCellBody
  | .nan => .empty
  | .inf => .empty
  | .negInf => .empty
  | .finite q =>
    if q.den = 1 ∧ |q| < 9007199254740992 ∧ 0 < |q| then .intText q.num
    else .floatText q

/-- C8 counterexample: zero is an integer of magnitude below 2 to the 53,
so the claim requires plain integer text, but the integer fast path also
demands abs greater than zero, so the code sends 0.0 through the ryu
float formatter (which renders 0.0, not 0). -/
theorem C8_counterexample :
    write_number_cell (.finite 0) = .floatText 0 ∧
    NumCellBody.floatText 0 ≠ NumCellBody.intText 0 ∧
    (0 : ℚ).den = 1 ∧ |(0 : ℚ)| < 9007199254740992 := by
  refine ⟨by decide, by decide, by decide, by decide⟩

/-- C8 (amended): a NONZERO integer of magnitude below 2 to the 53 is
written as plain integer text; zero and every other finite value go
through the shortest round-trip float formatter; non-finite values
produce an empty cell element. -/
theorem C8_number_cell_amended :
    (∀ q : ℚ, q.den = 1 → |q| < 9007199254740992 → q ≠ 0 →
      write_number_cell (.finite q) = .intText q.num) ∧
    (∀ q : ℚ, q.den ≠ 1 ∨ q = 0 ∨ 9007199254740992 ≤ |q| →
      write_number_cell (.finite q) = .floatText q) ∧
    write_number_cell .nan = .empty ∧
    write_number_cell .inf = .empty ∧
    write_number_cell .negInf = .empty := by
  refine ⟨?_, ?_, rfl, rfl, rfl⟩
  · intro q h1 h2 h0
    simp only [write_number_cell]
    rw [if_pos ⟨h1, h2, abs_pos.mpr h0⟩]
  · intro q h
    simp only [write_number_cell]
    rw [if_neg]
    rintro ⟨hden, hlt, hpos⟩
    rcases h with h | h | h
    · exact h hden
    · rw [h] at hpos
      simp at hpos
    · exact absurd hlt (not_lt.mpr h)

/-- Witness for C8: the amended branches fire at concrete inputs: 5.0 is
written as integer text 5, one half goes through the float formatter. -/
theorem C8_number_cell_amended_witness :
    write_number_cell (.finite 5) = .intText (5 : ℚ).num ∧
    write_number_cell (.finite 9007199254740992) =
      .floatText 9007199254740992 :=
  ⟨C8_number_cell_amended.1 5 (by decide) (by decide) (by decide),
   C8_number_cell_amended.2.1 9007199254740992
     (Or.inr (Or.inr (by norm_num)))⟩

/-! ## Claim C9: Excel date serial -/

/-- A chrono NaiveDateTime as the cell writer reads it: civil date plus
time of day (chrono stores seconds; the writer reads hour, minute,
second). -/
structure NaiveDateTime where
  year : Int
  month : Nat
  day : Nat
  hour : Nat
  minute : Nat
  second : Nat
deriving DecidableEq, Repr

/-- Days from 1970-01-01 to the given proleptic Gregorian civil date:
the day-count arithmetic underlying the chrono NaiveDate subtraction used
at src/xml.rs line 101 (Hinnant days_from_civil, with truncating integer
division as in the source languages). -/
def days_from_civil (y : Int) (m d : Nat) : Int :=
  let y2 : Int := if m ≤ 2 then y - 1 else y
  let era : Int := (if 0 ≤ y2 then y2 else y2 - 399).tdiv 400
  let yoe : Int := y2 - era * 400
  let mp : Nat := if 2 < m then m - 3 else m + 9
  let doy : Nat := (153 * mp + 2) / 5 + d - 1
  let doe : Int := yoe * 365 + yoe.tdiv 4 - yoe.tdiv 100 + doy
  era * 146097 + doe - 719468

/-- datetime_to_excel_serial from src/xml.rs lines 98-104: the whole
number of days from the epoch 1899-12-30 to the date (chrono date
subtraction) plus (hour * 3600 + minute * 60 + second) / 86400, modelled
exactly over the rationals. -/
def datetime_to_excel_serial (dt : NaiveDateTime) : ℚ :=
  let days : Int :=
    days_from_civil dt.year dt.month dt.day - days_from_civil 1899 12 30
  (days : ℚ) + ((dt.hour * 3600 + dt.minute * 60 + dt.second : Nat) : ℚ) / 86400

/-- C9: every DateTime cell serial equals the whole number of days since
1899-12-30 plus seconds-of-day divided by 86400; concretely,
2024-01-01T00:00:00 serializes to exactly 45292, the epoch itself to 0,
and 2024-01-01T06:00:00 to 45292 plus one quarter. -/
theorem C9_date_serial :
    (∀ dt : NaiveDateTime, datetime_to_excel_serial dt =
      ((days_from_civil dt.year dt.month dt.day -
        days_from_civil 1899 12 30 : Int) : ℚ) +
      ((dt.hour * 3600 + dt.minute * 60 + dt.second : Nat) : ℚ) / 86400) ∧
    datetime_to_excel_serial ⟨2024, 1, 1, 0, 0, 0⟩ = 45292 ∧
    datetime_to_excel_serial ⟨1899, 12, 30, 0, 0, 0⟩ = 0 ∧
    datetime_to_excel_serial ⟨2024, 1, 1, 6, 0, 0⟩ = 45292 + 1 / 4 := by
  have h2024 : days_from_civil 2024 1 1 = 19723 := by decide
  have h1899 : days_from_civil 1899 12 30 = -25569 := by decide
  refine ⟨fun dt => rfl, ?_, ?_, ?_⟩
  · simp only [datetime_to_excel_serial, h2024, h1899]
    norm_num
  · simp only [datetime_to_excel_serial, h1899]
    norm_num
  · simp only [datetime_to_excel_serial, h2024, h1899]
    norm_num

/-! ## Claim C10: column letter encoding -/

/-- The digit stack built by the loop in write_col_letter (src/xml.rs
lines 62-87), least significant digit first: push col mod 26 and step to
col / 26 - 1 while col is at least 26, then push the final value. -/
def colDigits (col : Nat) : List Nat :=
  if col < 26 then [col]
  else (col % 26) :: colDigits (col / 26 - 1)
decreasing_by
  have h26 : col / 26 < col := Nat.div_lt_self (by omega) (by omega)
  omega

/-- write_col_letter from src/xml.rs lines 62-87, at the level of the
bytes written: the fast path for col < 26 emits the single byte 65 + col
(65 is the byte value of A); otherwise the digit stack is emitted in
reverse, each digit as byte 65 + digit. -/
def write_col_letter (col : Nat) : List Nat :=
  if col < 26 then [65 + col]
  else (colDigits col).reverse.map (fun d => 65 + d)

/-- Modelled from the spec: the decode direction of the bijective base-26
column transform is not present in the repository, but the round-trip
property of the spec names it.  Each letter byte b contributes b - 64
(A is 1 .. Z is 26) as a bijective base-26 digit, and one is subtracted
at the end to return to the zero-indexed column. -/
def decode_col_letters (bs : List Nat) : Nat :=
  bs.foldl (fun acc b => acc * 26 + (b - 64)) 0 - 1

theorem colDigits_of_lt (col : Nat) (h : col < 26) : colDigits col = [col] := by
  rw [colDigits]
  rw [if_pos h]

theorem colDigits_of_ge (col : Nat) (h : ¬ col < 26) :
    colDigits col = (col % 26) :: colDigits (col / 26 - 1) := by
  rw [colDigits]
  rw [if_neg h]

theorem colDigits_26 : colDigits 26 = [0, 0] := by
  rw [colDigits_of_ge 26 (by norm_num)]
  norm_num [colDigits_of_lt]

theorem colDigits_701 : colDigits 701 = [25, 25] := by
  rw [colDigits_of_ge 701 (by norm_num)]
  norm_num [colDigits_of_lt]

theorem write_col_letter_eq_digits (col : Nat) :
    write_col_letter col = (colDigits col).reverse.map (fun d => 65 + d) := by
  unfold write_col_letter
  split
  · rename_i h
    rw [colDigits]
    rw [if_pos h]
    rfl
  · rfl

theorem colDigits_foldr (col : Nat) :
    (colDigits col).foldr (fun d a => a * 26 + d + 1) 0 = col + 1 := by
  induction col using Nat.strong_induction_on with
  | _ col ih =>
    rw [colDigits]
    split
    · simp
    · rename_i h
      push_neg at h
      have hdiv : col / 26 < col := Nat.div_lt_self (by omega) (by omega)
      simp only [List.foldr_cons]
      rw [ih _ (by omega)]
      omega

theorem decode_write_col_letter (col : Nat) :
    decode_col_letters (write_col_letter col) = col := by
  rw [write_col_letter_eq_digits, decode_col_letters]
  rw [List.foldl_map, List.foldl_reverse]
  have hcongr : ∀ (l : List Nat),
      l.foldr (fun d a => a * 26 + (65 + d - 64)) 0 =
        l.foldr (fun d a => a * 26 + d + 1) 0 := by
    intro l
    induction l with
    | nil => rfl
    | cons d rest ih =>
      simp only [List.foldr_cons, ih]
      omega
  rw [hcongr, colDigits_foldr]
  omega

/-- C10: column-letter encoding round-trips through the spec decode for
every column index below 16384, and the concrete encodings of 0, 25, 26
and 701 are A, Z, AA and ZZ (as their ASCII byte values). -/
theorem C10_col_letter_roundtrip :
    (∀ i : Nat, i < 16384 → decode_col_letters (write_col_letter i) = i) ∧
    write_col_letter 0 = ('A' :: []).map Char.toNat ∧
    write_col_letter 25 = ('Z' :: []).map Char.toNat ∧
    write_col_letter 26 = ('A' :: 'A' :: []).map Char.toNat ∧
    write_col_letter 701 = ('Z' :: 'Z' :: []).map Char.toNat :=
  ⟨fun i _ => decode_write_col_letter i, by decide, by decide,
   by rw [write_col_letter_eq_digits, colDigits_26]; decide,
   by rw [write_col_letter_eq_digits, colDigits_701]; decide⟩

/-- Witness for C10: the round trip instantiated at column 701 (ZZ). -/
theorem C10_col_letter_roundtrip_witness :
    decode_col_letters (write_col_letter 701) = 701 :=
  C10_col_letter_roundtrip.1 701 (by decide)
